import Mathlib

/-!
Shallow embedding of the Partitionly round-lifecycle and submission-routing
engine (Go sources: main.go, handlers_files.go, session.go, plus the type
declarations shared by them), together with proofs settling the claims about
its specification.

Modelling conventions:
* Go strings are Lean `String`s; Go byte-wise lexicographic comparison on
  UTF-8 strings coincides with code-point lexicographic comparison, embedded
  here as `strLtCh` over `String.data`.
* Go maps (`map[string]*Participant`, `map[string]*Submission`) are
  association lists `List (String × _)`; the Go invariant that map keys are
  distinct appears as `Nodup` hypotheses where a proof needs it.
* Redis `GET` outcomes are `GetResult` (`found` for `err == nil`, `missing`
  for `err == redis.Nil`, `getError` for any other error); `SET` success is
  an explicit boolean input, and the successful writes a handler performs are
  returned as an explicit list of `StoreWrite`s (key, value, TTL in hours).
* The per-round upload directory is a list of file names; `os.Create` appends
  and `os.Remove` erases.
* Nondeterministic inputs of a request (generated UUID fragment, current Unix
  time, decoded form fields) are explicit parameters.
-/

namespace Partitionly

/-! ## String primitives mirroring the Go standard library -/

/-- Lexicographic strict comparison of character lists: Go's `<` on strings
(byte-wise over UTF-8, which agrees with code-point order). -/
def strLtCh : List Char → List Char → Bool
  | _, [] => false
  | [], _ :: _ => true
  | a :: as, b :: bs => if a < b then true else if b < a then false else strLtCh as bs

/-- Go `a < b` on strings. -/
def strLt (a b : String) : Bool := strLtCh a.data b.data

/-- Go `a <= b` on strings (equivalently `!(b < a)`). -/
def strLe (a b : String) : Bool := !(strLt b a)

/-- `strLe` as a relation, used for deterministic sorting. -/
def strLeP (a b : String) : Prop := strLe a b = true

instance : DecidableRel strLeP := fun a b => instDecidableEqBool (strLe a b) true

/-- ASCII lower-casing of one character (`strings.ToLower` restricted to the
ASCII range, which is all the upload code applies it to: file extensions). -/
def charToLower (c : Char) : Char :=
  if 'A' ≤ c ∧ c ≤ 'Z' then Char.ofNat (c.toNat + 32) else c

/-- ASCII `strings.ToLower`. -/
def strToLower (s : String) : String := ⟨s.data.map charToLower⟩

/-- ASCII upper-casing of one character (`strings.ToUpper`). -/
def charToUpper (c : Char) : Char :=
  if 'a' ≤ c ∧ c ≤ 'z' then Char.ofNat (c.toNat - 32) else c

/-- ASCII `strings.ToUpper`. -/
def strToUpper (s : String) : String := ⟨s.data.map charToUpper⟩

/-- ASCII white-space test used by `strings.TrimSpace`. -/
def isSpaceCh (c : Char) : Bool := c = ' ' || c = '\t' || c = '\n' || c = '\r'

/-- ASCII `strings.TrimSpace`. -/
def strTrimSpace (s : String) : String :=
  ⟨((s.data.dropWhile isSpaceCh).reverse.dropWhile isSpaceCh).reverse⟩

/-- `filepath.Ext`: the suffix starting at the final dot, `""` if there is
no dot (upload file names contain no path separators). -/
def fileExt (s : String) : String :=
  if s.data.contains '.' then
    ⟨'.' :: ((s.data.reverse.takeWhile (fun c => c ≠ '.')).reverse)⟩
  else ""

/-! ## Data model (type declarations from the Go source) -/

/-- `Participant` record; `joinedAt` is a Unix time. -/
structure Participant where
  id : String
  displayName : String
  isHost : Bool
  joinedAt : Nat
deriving Repr, DecidableEq

/-- `Submission` record; `assignedToId = ""` models the absent
(`omitempty`) assignment. -/
structure Submission where
  participantId : String
  filename : String
  originalName : String
  uploadedAt : Nat
  assignedToId : String
deriving Repr, DecidableEq

/-- `Round` record. `participants` and `submissions` are the two keyed
collections (`map[string]*Participant`, `map[string]*Submission`). -/
structure Round where
  id : String
  name : String
  mode : String
  joinCode : String
  state : String
  hostId : String
  participants : List (String × Participant)
  submissions : List (String × Submission)
  allowGuestDownload : Bool
  createdAt : Nat
  sampleFileId : String
deriving Repr, DecidableEq

/-- `Session` record. -/
structure Session where
  token : String
  participantId : String
  roundCode : String
  createdAt : Nat
deriving Repr, DecidableEq

def ModeSample : String := "sample"
def ModeTelephone : String := "telephone"
def StateWaiting : String := "waiting"
def StateActive : String := "active"
def StateClosed : String := "closed"

/-! ## Store keys and writes -/

/-- `roundKey` from main.go. -/
def roundKey (code : String) : String := "round:" ++ code

/-- `sessionKey` from main.go. The source literally reads
`fmt.Sprintf("sesssion:%s", token)` — with three letters `s` — and both the
writers and the reader (`getSession`) go through this helper. -/
def sessionKey (token : String) : String := "sesssion:" ++ token

/-- A value stored in Redis: a serialized Round or a serialized Session. -/
inductive StoreVal where
  | roundVal (r : Round)
  | sessionVal (s : Session)
deriving Repr, DecidableEq

/-- One successful Redis `SET` performed by a handler: key, value and the
expiration passed to the call, in hours. -/
structure StoreWrite where
  key : String
  val : StoreVal
  ttlHours : Nat
deriving Repr, DecidableEq

/-- Outcome of the Redis `GET` for a round: `found` is `err == nil`,
`missing` is `err == redis.Nil`, `getError` is any other error. -/
inductive GetResult where
  | found (data : Round)
  | missing
  | getError
deriving Repr, DecidableEq

/-- A handler response: `httpError` is `http.Error(w, msg, status)`;
`jsonError` is a JSON body `{success:false, error}` written with the default
HTTP status 200; `jsonOk` is a JSON success body (payload abstracted as
string key/value pairs); `noResponse` marks a request that died in a runtime
panic before any response was written. -/
inductive Resp where
  | httpError (status : Nat) (msg : String)
  | jsonError (error : String)
  | jsonOk (payload : List (String × String))
  | noResponse
deriving Repr, DecidableEq

/-- Does a response use HTTP status 401? -/
def isHttp401 : Resp → Bool
  | .httpError 401 _ => true
  | _ => false

/-- Does a response use HTTP status 404? -/
def isHttp404 : Resp → Bool
  | .httpError 404 _ => true
  | _ => false

/-! ## Go map operations on association lists -/

/-- Go map assignment `m[k] = v`: replace the binding if the key is present,
otherwise add it. -/
def mapSet {α : Type} : List (String × α) → String → α → List (String × α)
  | [], k, v => [(k, v)]
  | (k1, v1) :: rest, k, v =>
      if k1 = k then (k, v) :: rest else (k1, v1) :: mapSet rest k v

theorem lookup_mapSet_self {α : Type} (m : List (String × α)) (k : String) (v : α) :
    List.lookup k (mapSet m k v) = some v := by
  induction m with
  | nil => simp [mapSet, List.lookup]
  | cons hd tl ih =>
    obtain ⟨k1, v1⟩ := hd
    by_cases h : k1 = k
    · simp [mapSet, h, List.lookup]
    · simp only [mapSet, if_neg h, List.lookup]
      have : (k == k1) = false := by
        simp [beq_iff_eq]; exact fun hk => h hk.symm
      simp [this, ih]

/-! ## handleUpdateState (main.go) -/

/-- Request-level inputs of `handleUpdateState`. -/
structure UpdateStateInput where
  code : String
  decodeOk : Bool
  reqState : String
  session : Option Session
  get : GetResult
  saveOk : Bool
deriving Repr, DecidableEq

/-- Response plus the successful store writes of a round-mutating handler. -/
structure HandlerOutput where
  resp : Resp
  writes : List StoreWrite
deriving Repr, DecidableEq

/-- `handleUpdateState`, translated line by line. The round lookup checks
`if err != redis.Nil` (main.go line 527): a successfully loaded round
(`err == nil`) therefore takes the `"Round not found"` branch, a missing
round (`err == redis.Nil`) falls to `else if err != nil` and takes the
`"Failed to get round"` branch, and every later line (host authorization,
state assignment, save, success response) is unreachable. -/
def handleUpdateState (inp : UpdateStateInput) : HandlerOutput :=
  if !inp.decodeOk then ⟨.httpError 400 "Invalid request", []⟩
  else if inp.reqState ≠ StateWaiting ∧ inp.reqState ≠ StateActive ∧
      inp.reqState ≠ StateClosed then
    ⟨.jsonError "Invalid state", []⟩
  else
    match inp.session with
    | none => ⟨.httpError 401 "Unauthorized", []⟩
    | some _sess =>
      match inp.get with
      | .found _round => ⟨.httpError 404 "Round not found", []⟩
      | .getError => ⟨.httpError 404 "Round not found", []⟩
      | .missing => ⟨.httpError 500 "Failed to get round", []⟩

/-! ## handleUpload (handlers_files.go) -/

/-- The fixed audio extension allow-list of `handleUpload`. -/
def validExts : List String := [".mp3", ".wav", ".m4a", ".flac", ".ogg", ".aac"]

/-- The collision-resistant stored file name:
`participantID_uuid8_unixTime + ext`. -/
def safeFilename (pid uuid8 : String) (now : Nat) (ext : String) : String :=
  pid ++ "_" ++ uuid8 ++ "_" ++ toString now ++ ext

/-- Participant ids of a round, in the deterministic ascending order produced
by `sort.Strings` over the map keys. -/
def sortedParticipantIds (r : Round) : List String :=
  List.insertionSort strLeP (r.participants.map Prod.fst)

/-- The `currentPos` search loop: the first index at which `pid` occurs, or
`none` for Go's `-1`. -/
def findPos : List String → String → Option Nat
  | [], _ => none
  | x :: xs, pid => if x = pid then some 0 else (findPos xs pid).map (· + 1)

/-- The telephone-mode assignment block of `handleUpload`: the uploader at
sorted position `pos` (when `pos` is not last) is assigned the participant at
`pos + 1`; on a replacement whose previous submission carried a non-empty
`assignedToId`, that previous value is kept. `oldAssigned` is
`some old.assignedToId` exactly when this upload is a replacement. -/
def telephoneAssignedTo (ids : List String) (pid : String)
    (oldAssigned : Option String) : String :=
  match findPos ids pid with
  | some pos =>
    if pos + 1 < ids.length then
      let next := ids.getD (pos + 1) ""
      match oldAssigned with
      | some old => if old ≠ "" then old else next
      | none => next
    else ""
  | none => ""

/-- Whether the uploader occupies a non-final sorted position, i.e. Go's
`currentPos != -1 && currentPos < len(participantIDs)-1` guarding the
assignment block. -/
def telephoneMidPosition (ids : List String) (pid : String) : Bool :=
  match findPos ids pid with
  | some pos => decide (pos + 1 < ids.length)
  | none => false

/-- The `assignedToId` value an upload by `pid` ends up with: the telephone
case's assignment (fresh successor, or the preserved prior value on a
replacement), and `""` in every other mode. -/
def uploadAssigned (round : Round) (pid : String) : String :=
  if round.mode = ModeTelephone then
    telephoneAssignedTo (sortedParticipantIds round) pid
      ((List.lookup pid round.submissions).map (fun s => s.assignedToId))
  else ""

/-- Whether the assignment log of `handleUpload` (handlers_files.go lines
220-221, `round.Participants[submission.AssignedToID].DisplayName`)
dereferences a nil participant: telephone mode, the uploader at a non-final
sorted position (so the assignment block runs), and the final `assignedToId`
not a current participant key. A fresh assignment is always a sorted
participant key, so this can only fire for a replacement whose preserved
prior assignment no longer names a participant. The response construction at
line 288 looks up the same key in the same map and therefore cannot
introduce a further panic once this log has succeeded. -/
def uploadPanics (round : Round) (pid : String) : Bool :=
  decide (round.mode = ModeTelephone) &&
    telephoneMidPosition (sortedParticipantIds round) pid &&
    (List.lookup (uploadAssigned round pid) round.participants).isNone

/-- Request-level inputs of `handleUpload`. -/
structure UploadInput where
  code : String
  session : Option Session
  get : GetResult
  tooLarge : Bool
  fileProvided : Bool
  origName : String
  uuid8 : String
  nowUnix : Nat
  saveOk : Bool
  dirFiles : List String
deriving Repr, DecidableEq

/-- Result of `handleUpload`: the response, the successful store writes, and
the final contents of the round's upload directory. -/
structure UploadOutput where
  resp : Resp
  writes : List StoreWrite
  dirFiles : List String
deriving Repr, DecidableEq

/-- `handleUpload`, translated step by step: session check (401), round
lookup (404/500), participation check (structured JSON error), active-state
check, sample-mode precondition, replacement detection, multipart parse
(400 on oversize), form file check, extension allow-list, file write,
per-mode routing (telephone chain assignment and seed propagation, where the
assignment log panics on a dangling preserved assignment — `noResponse`,
nothing saved, the new file left on disk), store save with rollback of the
new file on failure, and deletion of the replaced file only after a
successful save. -/
def handleUpload (inp : UploadInput) : UploadOutput :=
  match inp.session with
  | none => ⟨.httpError 401 "Unauthorized", [], inp.dirFiles⟩
  | some sess =>
    match inp.get with
    | .missing => ⟨.httpError 404 "Round not found", [], inp.dirFiles⟩
    | .getError => ⟨.httpError 500 "Failed to get round", [], inp.dirFiles⟩
    | .found round =>
      match List.lookup sess.participantId round.participants with
      | none => ⟨.jsonError "You are not a participant in this round", [], inp.dirFiles⟩
      | some _participant =>
        if round.state ≠ StateActive then
          ⟨.jsonError "Uploads are only allowed when the round is active", [], inp.dirFiles⟩
        else if round.mode = ModeSample ∧ round.sampleFileId = "" then
          ⟨.jsonError "Waiting for host to upload sample file first", [], inp.dirFiles⟩
        else
          let oldSubmission := List.lookup sess.participantId round.submissions
          let isReplacement := oldSubmission.isSome
          if inp.tooLarge then
            ⟨.httpError 400 "File too large (max 32MB)", [], inp.dirFiles⟩
          else if !inp.fileProvided then
            ⟨.jsonError "No file provided", [], inp.dirFiles⟩
          else
            let ext := strToLower (fileExt inp.origName)
            if ext ∉ validExts then
              ⟨.jsonError "Invalid file type. Please upload an audio file (mp3, wav, m4a, flac, ogg, aac)",
               [], inp.dirFiles⟩
            else
              let fname := safeFilename sess.participantId inp.uuid8 inp.nowUnix ext
              let files1 := inp.dirFiles ++ [fname]
              let ids := sortedParticipantIds round
              let assigned := uploadAssigned round sess.participantId
              if uploadPanics round sess.participantId then
                ⟨.noResponse, [], files1⟩
              else
                let sub : Submission :=
                  { participantId := sess.participantId, filename := fname,
                    originalName := inp.origName, uploadedAt := inp.nowUnix,
                    assignedToId := assigned }
                let round1 :=
                  if round.mode = ModeTelephone ∧ findPos ids sess.participantId = some 0 then
                    { round with sampleFileId := fname }
                  else round
                let round2 :=
                  { round1 with submissions := mapSet round1.submissions sess.participantId sub }
                if !inp.saveOk then
                  ⟨.httpError 500 "Failed to update round", [], files1.erase fname⟩
                else
                  let files2 :=
                    match oldSubmission with
                    | some old => files1.erase old.filename
                    | none => files1
                  ⟨.jsonOk [("filename", fname),
                            ("isReplacement", if isReplacement then "true" else "false")],
                   [⟨roundKey inp.code, .roundVal round2, 24⟩], files2⟩

/-- The `assignedToId` of the submission recorded by an upload, read back
from the round value the handler saved. -/
def recordedAssignedTo (out : UploadOutput) (pid : String) : Option String :=
  match out.writes with
  | [w] =>
    match w.val with
    | .roundVal r => (List.lookup pid r.submissions).map (fun s => s.assignedToId)
    | _ => none
  | _ => none

/-! ## handleCreateRound and handleJoinRound (main.go) -/

/-- Request-level inputs of `handleJoinRound`. `get` is the Redis lookup of
the normalized code; `newParticipantId` and `newToken` are the generated
UUIDs. -/
structure JoinInput where
  decodeOk : Bool
  reqCode : String
  displayName : String
  existingSession : Option Session
  get : GetResult
  newParticipantId : String
  newToken : String
  nowUnix : Nat
  saveOk : Bool
  sessionSaveOk : Bool
deriving Repr, DecidableEq

/-- The participant step of `handleJoinRound`: a caller whose existing
session already belongs to this round keeps their participant id and has
their display name updated in place; otherwise a fresh participant is
inserted. Returns the participant id used and the updated round. -/
def joinParticipantUpdate (round : Round) (es : Option Session)
    (code displayName newPid : String) (now : Nat) : String × Round :=
  let newPart : Participant :=
    { id := newPid, displayName := displayName, isHost := false, joinedAt := now }
  let fresh : String × Round :=
    (newPid, { round with participants := mapSet round.participants newPid newPart })
  match es with
  | some s =>
    if s.roundCode = code then
      (s.participantId,
       match List.lookup s.participantId round.participants with
       | some p =>
         let renamed : Participant := { p with displayName := displayName }
         { round with participants := mapSet round.participants s.participantId renamed }
       | none => round)
    else fresh
  | none => fresh

/-- `handleJoinRound`: decode and validate the body, normalize the code
(`strings.ToUpper(strings.TrimSpace(code))`), load the round (an unknown
code answers a structured `{success:false, error:"Invalid join code"}` JSON
body with the default HTTP status), reject non-waiting rounds, update or add
the participant, save the round, then save the new session (non-fatal on
failure). -/
def handleJoinRound (inp : JoinInput) : HandlerOutput :=
  if !inp.decodeOk then ⟨.httpError 400 "Invalid Request", []⟩
  else
    let code := strToUpper (strTrimSpace inp.reqCode)
    if code = "" ∨ inp.displayName = "" then
      ⟨.jsonError "Code and display name are required", []⟩
    else
      match inp.get with
      | .missing => ⟨.jsonError "Invalid join code", []⟩
      | .getError => ⟨.httpError 500 "Failed to get round", []⟩
      | .found round =>
        if round.state ≠ StateWaiting then
          ⟨.jsonError "This round is no longer accepting particpants", []⟩
        else
          let pr := joinParticipantUpdate round inp.existingSession code
            inp.displayName inp.newParticipantId inp.nowUnix
          if !inp.saveOk then ⟨.httpError 500 "Failed to update round", []⟩
          else
            let sess : Session :=
              { token := inp.newToken, participantId := pr.1,
                roundCode := code, createdAt := inp.nowUnix }
            let sessWrites :=
              if inp.sessionSaveOk then
                [⟨sessionKey inp.newToken, .sessionVal sess, 24⟩]
              else []
            ⟨.jsonOk [("code", code), ("participantId", pr.1),
                      ("displayName", inp.displayName), ("isHost", "false")],
             ⟨roundKey code, .roundVal pr.2, 24⟩ :: sessWrites⟩

/-! ## handleDownload (handlers_files.go) -/

/-- Outcome of `handleDownload`. `nilDeref` marks the run hitting the final
`log.Printf(..., participant.DisplayName, ...)` with `participant == nil`
(the zero value returned by the map lookup for a non-participant), a nil
pointer dereference. -/
inductive DownloadOutcome where
  | httpError (status : Nat) (msg : String)
  | nilDeref
  | served (file origName byDisplayName : String)
deriving Repr, DecidableEq

/-- The scan over `round.Submissions` for a submission whose stored filename
matches the requested one (association-list order stands in for Go's map
iteration order; stored filenames are unique in practice). -/
def findSubmissionByFilename (subs : List (String × Submission)) (fname : String) :
    Option Submission :=
  (subs.map Prod.snd).find? (fun sub => sub.filename = fname)

/-- The scan over `round.Submissions` for the submission assigned to the
given participant. -/
def findSubmissionAssignedTo (subs : List (String × Submission)) (pid : String) :
    Option Submission :=
  (subs.map Prod.snd).find? (fun sub => sub.assignedToId = pid)

/-- The tail of `handleDownload` once `fileToServe` and `originalName` are
resolved: the empty-name check (404), `os.Open` (404 on failure), headers
and streaming, and the final log line that reads `participant.DisplayName`
— a nil dereference when the caller was admitted as a guest. -/
def downloadServe (canOpen : String → Bool) (participant? : Option Participant)
    (fileToServe origName : String) : DownloadOutcome :=
  if fileToServe = "" then
    .httpError 404 "File not found or not available for download"
  else if !canOpen fileToServe then .httpError 404 "File not found on server"
  else
    match participant? with
    | none => .nilDeref
    | some p => .served fileToServe origName p.displayName

/-- Request-level inputs of `handleDownload`. `canOpen` tells which stored
file names `os.Open` succeeds on. -/
structure DownloadInput where
  code : String
  requestedFilename : String
  session : Option Session
  get : GetResult
  canOpen : String → Bool

/-- `handleDownload`: session check, round lookup, the guest-download gate
(403 only when the caller is no participant and `allowGuestDownload` is
off), per-mode file resolution, and the serving tail. -/
def handleDownload (inp : DownloadInput) : DownloadOutcome :=
  match inp.session with
  | none => .httpError 401 "Unauthorized"
  | some sess =>
    match inp.get with
    | .missing => .httpError 404 "Round not found"
    | .getError => .httpError 500 "Failed to get round"
    | .found round =>
      let participant? := List.lookup sess.participantId round.participants
      if participant?.isNone ∧ !round.allowGuestDownload then
        .httpError 403 "You must be a participant to download files"
      else if round.mode = ModeSample then
        if inp.requestedFilename = "sample" ∨ inp.requestedFilename = round.sampleFileId then
          if round.sampleFileId = "" then .httpError 404 "No sample uploaded yet"
          else downloadServe inp.canOpen participant? round.sampleFileId "sample.mp3"
        else
          match findSubmissionByFilename round.submissions inp.requestedFilename with
          | some sub => downloadServe inp.canOpen participant? sub.filename sub.originalName
          | none => downloadServe inp.canOpen participant? "" ""
      else if round.mode = ModeTelephone then
        if inp.requestedFilename = "assigned" then
          match findSubmissionAssignedTo round.submissions sess.participantId with
          | some sub => downloadServe inp.canOpen participant? sub.filename sub.originalName
          | none =>
            if round.sampleFileId ≠ "" ∧ (sortedParticipantIds round).length > 1 ∧
                (sortedParticipantIds round).getD 1 "" = sess.participantId then
              downloadServe inp.canOpen participant? round.sampleFileId "starting_file.mp3"
            else downloadServe inp.canOpen participant? "" ""
        else
          match findSubmissionByFilename round.submissions inp.requestedFilename with
          | some sub => downloadServe inp.canOpen participant? sub.filename sub.originalName
          | none => downloadServe inp.canOpen participant? "" ""
      else downloadServe inp.canOpen participant? "" ""

/-! ## handleExport (handlers_files.go) -/

/-- The display names paired with each submission, as built for
`sortedSubmissions`. The Go code reads `participant.DisplayName` from the
result of a map lookup, so a submission whose owner is absent from
`round.Participants` dereferences a nil pointer: that is the `none` case. -/
def exportNamedSubs (r : Round) : Option (List (String × Submission)) :=
  r.submissions.mapM
    (fun ps => (List.lookup ps.1 r.participants).map (fun p => (p.displayName, ps.2)))

/-- Ordering on (display name, submission) pairs used by the export sort
(`sort.Slice` comparing participant names with Go's `<`). -/
def exportNameLe (a b : String × Submission) : Prop := strLe a.1 b.1 = true

instance : DecidableRel exportNameLe :=
  fun a b => instDecidableEqBool (strLe a.1 b.1) true

/-- The `%02d` positional prefix of an archive entry. -/
def pad2 (n : Nat) : String := if n < 10 then "0" ++ toString n else toString n

/-- The name of the archive entry for the submission at sorted position `i`:
`fmt.Sprintf("%02d_%s_%s", i+1, participantName, originalName)`. -/
def zipEntryName (i : Nat) (participantName origName : String) : String :=
  pad2 (i + 1) ++ "_" ++ participantName ++ "_" ++ origName

/-- The submission entries of the archive, as (entry name, source file)
pairs: the sorted submissions are enumerated, and any entry whose file
cannot be opened is skipped (logged, not fatal) while the numbering keeps
counting. -/
def exportSubmissionEntries (sorted : List (String × Submission))
    (canOpen : String → Bool) : List (String × String) :=
  sorted.enum.filterMap
    (fun p =>
      if canOpen p.2.2.filename then
        some (zipEntryName p.1 p.2.1 p.2.2.originalName, p.2.2.filename)
      else none)

/-- Outcome of `handleExport`: an HTTP error, the nil dereference of a
missing submission owner, or the assembled archive as a list of (entry name,
source file) pairs. -/
inductive ExportOutcome where
  | httpError (status : Nat) (msg : String)
  | nilDeref
  | archive (entries : List (String × String))
deriving Repr, DecidableEq

/-- Request-level inputs of `handleExport`. -/
structure ExportInput where
  session : Option Session
  get : GetResult
  canOpen : String → Bool

/-- `handleExport`: session check, round lookup, host-only authorization
(403), empty-round check (404), then the archive: the sample file first
(named `00_sample_<sampleFileId>`, skipped if it cannot be opened), followed
by one entry per submission in ascending display-name order. -/
def handleExport (inp : ExportInput) : ExportOutcome :=
  match inp.session with
  | none => .httpError 401 "Unauthorized"
  | some sess =>
    match inp.get with
    | .missing => .httpError 404 "Round not found"
    | .getError => .httpError 500 "Failed to get round"
    | .found round =>
      if sess.participantId ≠ round.hostId then
        .httpError 403 "Only the host can export all files"
      else if round.submissions.length = 0 ∧ round.sampleFileId = "" then
        .httpError 404 "No files to export"
      else
        let sampleEntries :=
          if round.sampleFileId ≠ "" then
            if inp.canOpen round.sampleFileId then
              [("00_sample_" ++ round.sampleFileId, round.sampleFileId)]
            else []
          else []
        match exportNamedSubs round with
        | none => .nilDeref
        | some named =>
          let sorted := List.insertionSort exportNameLe named
          .archive (sampleEntries ++ exportSubmissionEntries sorted inp.canOpen)

/-! ## Order lemmas for the string comparison -/

theorem strLtCh_asymm : ∀ as bs, strLtCh as bs = true → strLtCh bs as = false := by
  intro as
  induction as with
  | nil =>
    intro bs h
    cases bs with
    | nil => simp [strLtCh] at h
    | cons b bs1 => simp [strLtCh]
  | cons a as1 ih =>
    intro bs h
    cases bs with
    | nil => simp [strLtCh] at h
    | cons b bs1 =>
      simp only [strLtCh] at h ⊢
      by_cases hab : a < b
      · rw [if_neg (asymm hab), if_pos hab]
      · by_cases hba : b < a
        · rw [if_neg hab, if_pos hba] at h
          exact absurd h (by simp)
        · rw [if_neg hab, if_neg hba] at h
          rw [if_neg hba, if_neg hab]
          exact ih bs1 h

theorem strLtCh_trans_or : ∀ cs as bs, strLtCh cs as = true →
    strLtCh cs bs = true ∨ strLtCh bs as = true := by
  intro cs
  induction cs with
  | nil =>
    intro as bs h
    cases as with
    | nil => simp [strLtCh] at h
    | cons a as1 =>
      cases bs with
      | nil => right; simp [strLtCh]
      | cons b bs1 => left; simp [strLtCh]
  | cons c cs1 ih =>
    intro as bs h
    cases as with
    | nil => simp [strLtCh] at h
    | cons a as1 =>
      cases bs with
      | nil => right; simp [strLtCh]
      | cons b bs1 =>
        simp only [strLtCh] at h ⊢
        rcases lt_trichotomy c a with hca | hca | hca
        · rcases lt_trichotomy c b with hcb | hcb | hcb
          · left; rw [if_pos hcb]
          · right; rw [if_pos (show b < a from hcb ▸ hca)]
          · right; rw [if_pos (lt_trans hcb hca)]
        · subst hca
          rw [if_neg (lt_irrefl c), if_neg (lt_irrefl c)] at h
          rcases lt_trichotomy c b with hcb | hcb | hcb
          · left; rw [if_pos hcb]
          · subst hcb
            simp only [lt_self_iff_false, if_false]
            exact ih as1 bs1 h
          · right; rw [if_pos hcb]
        · rw [if_neg (asymm hca), if_pos hca] at h
          exact absurd h (by simp)

theorem strLe_total (a b : String) : strLe a b = true ∨ strLe b a = true := by
  by_cases h : strLt b a = true
  · right
    have hf := strLtCh_asymm b.data a.data h
    simp only [strLe, strLt] at *
    simp [hf]
  · left
    simp only [strLe, strLt] at *
    simp [Bool.not_eq_true] at h
    simp [h]

theorem strLe_trans_thm (a b c : String)
    (h1 : strLe a b = true) (h2 : strLe b c = true) : strLe a c = true := by
  simp only [strLe, strLt, Bool.not_eq_true'] at h1 h2 ⊢
  by_contra hc
  simp only [Bool.not_eq_false] at hc
  rcases strLtCh_trans_or c.data a.data b.data hc with h | h
  · rw [h2] at h; exact absurd h (by simp)
  · rw [h1] at h; exact absurd h (by simp)

instance : IsTotal String strLeP := ⟨fun a b => strLe_total a b⟩

instance : IsTrans String strLeP := ⟨fun a b c => strLe_trans_thm a b c⟩

instance : IsTotal (String × Submission) exportNameLe :=
  ⟨fun a b => strLe_total a.1 b.1⟩

instance : IsTrans (String × Submission) exportNameLe :=
  ⟨fun a b c => strLe_trans_thm a.1 b.1 c.1⟩

/-! ## Index lemmas for the position search -/

theorem findPos_eq_of_getElem (ids : List String) (hnd : ids.Nodup) (i : Nat)
    (pid : String) (h : ids[i]? = some pid) : findPos ids pid = some i := by
  induction ids generalizing i with
  | nil => simp at h
  | cons x xs ih =>
    cases i with
    | zero =>
      simp at h
      subst h
      simp [findPos]
    | succ j =>
      simp only [List.getElem?_cons_succ] at h
      have hx : x ≠ pid := by
        intro he
        subst he
        exact (List.nodup_cons.mp hnd).1 (List.getElem?_mem h)
      simp [findPos, hx, ih (List.nodup_cons.mp hnd).2 j h]

theorem getElem_of_findPos (ids : List String) (pid : String) (i : Nat)
    (h : findPos ids pid = some i) : ids[i]? = some pid := by
  induction ids generalizing i with
  | nil => simp [findPos] at h
  | cons x xs ih =>
    by_cases hx : x = pid
    · simp only [findPos, if_pos hx] at h
      cases h
      simpa using hx
    · simp only [findPos, if_neg hx] at h
      cases hj : findPos xs pid with
      | none => rw [hj] at h; simp at h
      | some j =>
        rw [hj] at h
        simp at h
        cases h
        simpa using ih j hj

theorem findPos_lt_length (ids : List String) (pid : String) (i : Nat)
    (h : findPos ids pid = some i) : i < ids.length := by
  have := getElem_of_findPos ids pid i h
  exact (List.getElem?_eq_some_iff.mp this).1

/-! ## Derived views of a successful upload

These abbreviations name the round value, submission and directory contents
a successful `handleUpload` produces; they are read off the handler body and
used to state the upload theorems. -/

/-- The submission record a successful upload stores for `pid`. -/
def uploadNewSubmission (round : Round) (pid uuid8 : String) (now : Nat)
    (ext origName : String) : Submission :=
  { participantId := pid,
    filename := safeFilename pid uuid8 now ext,
    originalName := origName, uploadedAt := now,
    assignedToId := uploadAssigned round pid }

/-- The round value a successful upload saves back to the store. -/
def uploadResultRound (round : Round) (pid uuid8 : String) (now : Nat)
    (ext origName : String) : Round :=
  let fname := safeFilename pid uuid8 now ext
  let round1 :=
    if round.mode = ModeTelephone ∧ findPos (sortedParticipantIds round) pid = some 0 then
      { round with sampleFileId := fname }
    else round
  let newSubs := mapSet round1.submissions pid (uploadNewSubmission round pid uuid8 now ext origName)
  { round1 with submissions := newSubs }

/-- The upload-directory contents after a successful upload: the new file is
present, and on a replacement the superseded file has been removed. -/
def uploadResultFiles (round : Round) (dirFiles : List String) (pid uuid8 : String)
    (now : Nat) (ext : String) : List String :=
  let files1 := dirFiles ++ [safeFilename pid uuid8 now ext]
  match List.lookup pid round.submissions with
  | some old => files1.erase old.filename
  | none => files1

theorem uploadResultRound_submissions (round : Round) (pid uuid8 : String) (now : Nat)
    (ext origName : String) :
    (uploadResultRound round pid uuid8 now ext origName).submissions =
      mapSet round.submissions pid (uploadNewSubmission round pid uuid8 now ext origName) := by
  unfold uploadResultRound
  split <;> rfl

theorem uploadResultRound_sampleFileId (round : Round) (pid uuid8 : String) (now : Nat)
    (ext origName : String) :
    (uploadResultRound round pid uuid8 now ext origName).sampleFileId =
      (if round.mode = ModeTelephone ∧ findPos (sortedParticipantIds round) pid = some 0
       then safeFilename pid uuid8 now ext else round.sampleFileId) := by
  unfold uploadResultRound
  split <;> rfl

/-- Evaluation of `handleUpload` when every precondition passes and the store
save succeeds. -/
theorem handleUpload_success (inp : UploadInput) (sess : Session) (round : Round)
    (part : Participant)
    (hsess : inp.session = some sess)
    (hget : inp.get = .found round)
    (hpart : List.lookup sess.participantId round.participants = some part)
    (hact : round.state = StateActive)
    (hnos : ¬(round.mode = ModeSample ∧ round.sampleFileId = ""))
    (htl : inp.tooLarge = false)
    (hfp : inp.fileProvided = true)
    (hvx : strToLower (fileExt inp.origName) ∈ validExts)
    (hsafe : uploadPanics round sess.participantId = false)
    (hsave : inp.saveOk = true) :
    handleUpload inp =
      ⟨.jsonOk [("filename", safeFilename sess.participantId inp.uuid8 inp.nowUnix
            (strToLower (fileExt inp.origName))),
          ("isReplacement",
            if (List.lookup sess.participantId round.submissions).isSome
            then "true" else "false")],
       [⟨roundKey inp.code,
         .roundVal (uploadResultRound round sess.participantId inp.uuid8 inp.nowUnix
            (strToLower (fileExt inp.origName)) inp.origName), 24⟩],
       uploadResultFiles round inp.dirFiles sess.participantId inp.uuid8 inp.nowUnix
         (strToLower (fileExt inp.origName))⟩ := by
  unfold handleUpload uploadResultRound uploadResultFiles uploadNewSubmission
  simp only [hsess, hget, hpart]
  rw [if_neg (show ¬round.state ≠ StateActive by simp [hact])]
  rw [if_neg hnos]
  simp [htl, hfp, hsave, hvx, hsafe]

/-- Evaluation of `handleUpload` when every precondition passes but the store
save fails: the new file (fresh, hence not previously present) is rolled
back, nothing is written, and the failure is reported. -/
theorem handleUpload_saveFail (inp : UploadInput) (sess : Session) (round : Round)
    (part : Participant)
    (hsess : inp.session = some sess)
    (hget : inp.get = .found round)
    (hpart : List.lookup sess.participantId round.participants = some part)
    (hact : round.state = StateActive)
    (hnos : ¬(round.mode = ModeSample ∧ round.sampleFileId = ""))
    (htl : inp.tooLarge = false)
    (hfp : inp.fileProvided = true)
    (hvx : strToLower (fileExt inp.origName) ∈ validExts)
    (hsafe : uploadPanics round sess.participantId = false)
    (hsave : inp.saveOk = false)
    (hfile : safeFilename sess.participantId inp.uuid8 inp.nowUnix
        (strToLower (fileExt inp.origName)) ∉ inp.dirFiles) :
    handleUpload inp = ⟨.httpError 500 "Failed to update round", [], inp.dirFiles⟩ := by
  have herase : (inp.dirFiles ++ [safeFilename sess.participantId inp.uuid8 inp.nowUnix
      (strToLower (fileExt inp.origName))]).erase
        (safeFilename sess.participantId inp.uuid8 inp.nowUnix
          (strToLower (fileExt inp.origName))) = inp.dirFiles := by
    rw [List.erase_append_right _ hfile, List.erase_cons_head, List.append_nil]
  unfold handleUpload
  simp only [hsess, hget, hpart]
  rw [if_neg (show ¬round.state ≠ StateActive by simp [hact])]
  rw [if_neg hnos]
  simp [htl, hfp, hsave, hvx, hsafe, herase]

/-- Evaluation of `handleUpload` when every precondition passes but the
assignment log dereferences a nil participant: the handler panics with no
response, nothing is saved, nothing is rolled back, and the newly written
file is left on disk. -/
theorem handleUpload_assignPanic (inp : UploadInput) (sess : Session) (round : Round)
    (part : Participant)
    (hsess : inp.session = some sess)
    (hget : inp.get = .found round)
    (hpart : List.lookup sess.participantId round.participants = some part)
    (hact : round.state = StateActive)
    (hnos : ¬(round.mode = ModeSample ∧ round.sampleFileId = ""))
    (htl : inp.tooLarge = false)
    (hfp : inp.fileProvided = true)
    (hvx : strToLower (fileExt inp.origName) ∈ validExts)
    (hpanic : uploadPanics round sess.participantId = true) :
    handleUpload inp = ⟨.noResponse, [],
      inp.dirFiles ++ [safeFilename sess.participantId inp.uuid8 inp.nowUnix
        (strToLower (fileExt inp.origName))]⟩ := by
  unfold handleUpload
  simp only [hsess, hget, hpart]
  rw [if_neg (show ¬round.state ≠ StateActive by simp [hact])]
  rw [if_neg hnos]
  simp [htl, hfp, hvx, hpanic]

/-! ## Characterization of the telephone-chain assignment -/

theorem telephoneAssignedTo_fresh_mid (ids : List String) (hnd : ids.Nodup) (i : Nat)
    (pid : String) (hi : ids[i]? = some pid) (hlt : i + 1 < ids.length) :
    telephoneAssignedTo ids pid none = ids.getD (i + 1) "" := by
  unfold telephoneAssignedTo
  rw [findPos_eq_of_getElem ids hnd i pid hi]
  simp [hlt]

theorem telephoneAssignedTo_fresh_last (ids : List String) (hnd : ids.Nodup) (i : Nat)
    (pid : String) (hi : ids[i]? = some pid) (hlast : i + 1 = ids.length) :
    telephoneAssignedTo ids pid none = "" := by
  unfold telephoneAssignedTo
  rw [findPos_eq_of_getElem ids hnd i pid hi]
  simp [hlast]

theorem telephoneAssignedTo_repl_preserved (ids : List String) (hnd : ids.Nodup) (i : Nat)
    (pid oldAssigned : String) (hi : ids[i]? = some pid) (hlt : i + 1 < ids.length)
    (hne : oldAssigned ≠ "") :
    telephoneAssignedTo ids pid (some oldAssigned) = oldAssigned := by
  unfold telephoneAssignedTo
  rw [findPos_eq_of_getElem ids hnd i pid hi]
  simp [hlt, hne]

theorem telephoneAssignedTo_fresh_cases (ids : List String) (r : String)
    (hne : telephoneAssignedTo ids r none ≠ "") :
    ∃ ir, findPos ids r = some ir ∧ ∃ h : ir + 1 < ids.length,
      telephoneAssignedTo ids r none = ids[ir + 1] := by
  unfold telephoneAssignedTo at hne ⊢
  cases hr : findPos ids r with
  | none => simp only [hr] at hne; exact absurd rfl hne
  | some ir =>
    simp only [hr] at hne ⊢
    by_cases hlt : ir + 1 < ids.length
    · refine ⟨ir, rfl, hlt, ?_⟩
      rw [if_pos hlt]
      exact List.getD_eq_getElem ids "" hlt
    · rw [if_neg hlt] at hne
      exact absurd rfl hne

theorem telephoneAssignedTo_injective (ids : List String) (hnd : ids.Nodup)
    (p q : String) (hne : telephoneAssignedTo ids p none ≠ "")
    (heq : telephoneAssignedTo ids p none = telephoneAssignedTo ids q none) : p = q := by
  obtain ⟨ip, hp, hipl, hpv⟩ := telephoneAssignedTo_fresh_cases ids p hne
  obtain ⟨iq, hq, hiql, hqv⟩ := telephoneAssignedTo_fresh_cases ids q (heq ▸ hne)
  have hval : ids[ip + 1] = ids[iq + 1] := by rw [← hpv, ← hqv, heq]
  have hidx : ip + 1 = iq + 1 := (List.Nodup.getElem_inj_iff hnd).mp hval
  have hij : ip = iq := by omega
  have hpe : ids[ip]? = some p := getElem_of_findPos ids p ip hp
  have hqe : ids[iq]? = some q := getElem_of_findPos ids q iq hq
  rw [hij, hqe] at hpe
  exact (Option.some.inj hpe).symm

/-! ## The assignment log cannot panic on a fresh upload -/

theorem lookup_isSome_of_mem_keys {α : Type} (m : List (String × α)) (k : String)
    (h : k ∈ m.map Prod.fst) : (List.lookup k m).isSome := by
  induction m with
  | nil => simp at h
  | cons hd tl ih =>
    obtain ⟨k1, v1⟩ := hd
    simp only [List.map_cons, List.mem_cons] at h
    rcases h with rfl | h
    · simp [List.lookup]
    · by_cases he : k = k1
      · subst he
        simp [List.lookup]
      · have hb : (k == k1) = false := by simp [he]
        simpa [List.lookup, hb] using ih h

/-- A fresh (non-replacement) telephone upload never hits the nil-participant
dereference of the assignment log: when the uploader holds a non-final
position, the fresh assignment is the sorted successor, which is a key of
`round.participants`. -/
theorem uploadPanics_false_of_fresh (round : Round) (pid : String)
    (hfresh : List.lookup pid round.submissions = none) :
    uploadPanics round pid = false := by
  unfold uploadPanics
  cases hmp : telephoneMidPosition (sortedParticipantIds round) pid with
  | false => simp [hmp]
  | true =>
    by_cases hmode : round.mode = ModeTelephone
    · have hlk : (List.lookup (uploadAssigned round pid) round.participants).isSome := by
        unfold telephoneMidPosition at hmp
        cases hfp2 : findPos (sortedParticipantIds round) pid with
        | none => rw [hfp2] at hmp; simp at hmp
        | some pos =>
          rw [hfp2] at hmp
          have hlt : pos + 1 < (sortedParticipantIds round).length := by
            simpa using hmp
          have hassigned : uploadAssigned round pid =
              (sortedParticipantIds round)[pos + 1] := by
            unfold uploadAssigned
            rw [if_pos hmode, hfresh]
            unfold telephoneAssignedTo
            rw [hfp2]
            simp only [Option.map_none']
            rw [if_pos hlt]
            exact List.getD_eq_getElem _ "" hlt
          rw [hassigned]
          have hmem : (sortedParticipantIds round)[pos + 1] ∈ sortedParticipantIds round :=
            List.getElem_mem hlt
          have hkeys : (sortedParticipantIds round)[pos + 1] ∈
              round.participants.map Prod.fst :=
            (List.perm_insertionSort strLeP (round.participants.map Prod.fst)).mem_iff.mp hmem
          exact lookup_isSome_of_mem_keys _ _ hkeys
      obtain ⟨v, hv⟩ := Option.isSome_iff_exists.mp hlk
      simp [hmp, hmode, hv]
    · simp [hmode]

/-! ## Claim C2: telephone chain well-formedness -/

/-- C2: in telephone mode, a fresh (non-replacement) upload by the
participant at sorted position `i` records a submission assigned to the
participant at position `i + 1` when `i` is not last, and no assignment when
`i` is last; the fresh successor relation is injective, so the recorded
assignments form the path `p0 → p1 → ... → p(n-1) → none`. -/
theorem telephone_chain_wellformed
    (inp : UploadInput) (sess : Session) (round : Round) (part : Participant)
    (ids : List String) (i : Nat)
    (hsess : inp.session = some sess)
    (hget : inp.get = .found round)
    (hpart : List.lookup sess.participantId round.participants = some part)
    (hact : round.state = StateActive)
    (hmode : round.mode = ModeTelephone)
    (hfresh : List.lookup sess.participantId round.submissions = none)
    (htl : inp.tooLarge = false)
    (hfp : inp.fileProvided = true)
    (hvx : strToLower (fileExt inp.origName) ∈ validExts)
    (hsave : inp.saveOk = true)
    (hids : sortedParticipantIds round = ids)
    (hnd : ids.Nodup)
    (hi : ids[i]? = some sess.participantId) :
    (∃ r2 : Round,
      (handleUpload inp).writes = [⟨roundKey inp.code, .roundVal r2, 24⟩] ∧
      List.lookup sess.participantId r2.submissions =
        some { participantId := sess.participantId,
               filename := safeFilename sess.participantId inp.uuid8 inp.nowUnix
                   (strToLower (fileExt inp.origName)),
               originalName := inp.origName,
               uploadedAt := inp.nowUnix,
               assignedToId := telephoneAssignedTo ids sess.participantId none }) ∧
    (i + 1 < ids.length →
       telephoneAssignedTo ids sess.participantId none = ids.getD (i + 1) "") ∧
    (i + 1 = ids.length →
       telephoneAssignedTo ids sess.participantId none = "") ∧
    (∀ p q, telephoneAssignedTo ids p none ≠ "" →
       telephoneAssignedTo ids p none = telephoneAssignedTo ids q none → p = q) := by
  have hnos : ¬(round.mode = ModeSample ∧ round.sampleFileId = "") := by
    rintro ⟨hm, _⟩
    rw [hmode] at hm
    exact absurd hm (by decide)
  have hmain : ∃ r2 : Round,
      (handleUpload inp).writes = [⟨roundKey inp.code, .roundVal r2, 24⟩] ∧
      List.lookup sess.participantId r2.submissions =
        some { participantId := sess.participantId,
               filename := safeFilename sess.participantId inp.uuid8 inp.nowUnix
                   (strToLower (fileExt inp.origName)),
               originalName := inp.origName,
               uploadedAt := inp.nowUnix,
               assignedToId := telephoneAssignedTo ids sess.participantId none } := by
    have hsafe := uploadPanics_false_of_fresh round sess.participantId hfresh
    refine ⟨uploadResultRound round sess.participantId inp.uuid8 inp.nowUnix
        (strToLower (fileExt inp.origName)) inp.origName, ?_, ?_⟩
    · rw [handleUpload_success inp sess round part hsess hget hpart hact hnos htl hfp hvx
        hsafe hsave]
    · rw [uploadResultRound_submissions, lookup_mapSet_self]
      unfold uploadNewSubmission uploadAssigned
      rw [hmode, hfresh, hids]
      simp [ModeTelephone]
  exact ⟨hmain,
    fun hlt => telephoneAssignedTo_fresh_mid ids hnd i _ hi hlt,
    fun hlast => telephoneAssignedTo_fresh_last ids hnd i _ hi hlast,
    fun p q => telephoneAssignedTo_injective ids hnd p q⟩

/-- Concrete telephone round for the C2 witness: participant ids sort as
`["a1", "b2", "c3"]` and nobody has submitted yet. -/
def roundC2 : Round :=
  { id := "r2id", name := "Chain", mode := ModeTelephone, joinCode := "CHAIN1",
    state := StateActive, hostId := "a1",
    participants := [("a1", ⟨"a1", "Ana", true, 0⟩), ("b2", ⟨"b2", "Ben", false, 1⟩),
                     ("c3", ⟨"c3", "Cam", false, 2⟩)],
    submissions := [], allowGuestDownload := false, createdAt := 0, sampleFileId := "" }

/-- Concrete upload by `a1` (sorted position 0) for the C2 witness. -/
def uploadInC2 : UploadInput :=
  { code := "CHAIN1", session := some ⟨"t2", "a1", "CHAIN1", 0⟩, get := .found roundC2,
    tooLarge := false, fileProvided := true, origName := "beat.mp3", uuid8 := "u2u2u2u2",
    nowUnix := 100, saveOk := true, dirFiles := [] }

/-- Witness for C2 at the concrete round: the upload by `a1` is routed to
`b2`, the participant at sorted position 1. -/
theorem telephone_chain_wellformed_witness :
    telephoneAssignedTo ["a1", "b2", "c3"] "a1" none = List.getD ["a1", "b2", "c3"] 1 "" :=
  (telephone_chain_wellformed uploadInC2 ⟨"t2", "a1", "CHAIN1", 0⟩ roundC2
    ⟨"a1", "Ana", true, 0⟩ ["a1", "b2", "c3"] 0 rfl rfl (by decide) rfl rfl rfl rfl rfl
    (by decide) rfl (by decide) (by decide) (by decide)).2.1 (by decide)

/-! ## Claim C3: replacement assignment stability -/

/-- Concrete round for the C3 counterexample: `a` submitted while alone in
the round (no assignment), then `b` joined. -/
def roundC3 : Round :=
  { id := "r3id", name := "Drift", mode := ModeTelephone, joinCode := "DRIFT1",
    state := StateActive, hostId := "a",
    participants := [("a", ⟨"a", "Ada", true, 0⟩), ("b", ⟨"b", "Bo", false, 5⟩)],
    submissions := [("a", ⟨"a", "a_old_1.mp3", "first.mp3", 10, ""⟩)],
    allowGuestDownload := false, createdAt := 0, sampleFileId := "a_old_1.mp3" }

/-- Concrete replacement upload by `a` for the C3 counterexample. -/
def uploadInC3 : UploadInput :=
  { code := "DRIFT1", session := some ⟨"t3", "a", "DRIFT1", 0⟩, get := .found roundC3,
    tooLarge := false, fileProvided := true, origName := "second.mp3", uuid8 := "zzzzzzzz",
    nowUnix := 20, saveOk := true, dirFiles := ["a_old_1.mp3"] }

/-- Counterexample to C3 as stated: `a`'s prior submission carried no
assignment (`assignedToId = ""`), and the replacement upload records the
freshly recomputed successor `"b"` instead of the prior value. -/
theorem replacement_recomputed_cex :
    recordedAssignedTo (handleUpload uploadInC3) "a" = some "b" ∧
    (List.lookup "a" roundC3.submissions).map (fun s => s.assignedToId) = some "" ∧
    recordedAssignedTo (handleUpload uploadInC3) "a" ≠
      (List.lookup "a" roundC3.submissions).map (fun s => s.assignedToId) := by
  decide

/-- C3 (amended): a replacement upload in telephone mode preserves the prior
submission's `assignedToId` whenever that prior value is non-empty, still
names a current participant, and the participant occupies a non-final sorted
position; the stored filename and upload time nevertheless change to the
fresh values. (A preserved assignment naming no current participant would
make the assignment log dereference a nil participant and panic before the
save — the `uploadPanics` path of the model.) -/
theorem replacement_preserves_assignment
    (inp : UploadInput) (sess : Session) (round : Round) (part : Participant)
    (old : Submission) (pp : Participant) (ids : List String) (i : Nat)
    (hsess : inp.session = some sess)
    (hget : inp.get = .found round)
    (hpart : List.lookup sess.participantId round.participants = some part)
    (hact : round.state = StateActive)
    (hmode : round.mode = ModeTelephone)
    (hrepl : List.lookup sess.participantId round.submissions = some old)
    (hne : old.assignedToId ≠ "")
    (hpres : List.lookup old.assignedToId round.participants = some pp)
    (htl : inp.tooLarge = false)
    (hfp : inp.fileProvided = true)
    (hvx : strToLower (fileExt inp.origName) ∈ validExts)
    (hsave : inp.saveOk = true)
    (hids : sortedParticipantIds round = ids)
    (hnd : ids.Nodup)
    (hi : ids[i]? = some sess.participantId)
    (hmid : i + 1 < ids.length) :
    ∃ r2 : Round,
      (handleUpload inp).writes = [⟨roundKey inp.code, .roundVal r2, 24⟩] ∧
      List.lookup sess.participantId r2.submissions =
        some { participantId := sess.participantId,
               filename := safeFilename sess.participantId inp.uuid8 inp.nowUnix
                   (strToLower (fileExt inp.origName)),
               originalName := inp.origName,
               uploadedAt := inp.nowUnix,
               assignedToId := old.assignedToId } := by
  have hnos : ¬(round.mode = ModeSample ∧ round.sampleFileId = "") := by
    rintro ⟨hm, _⟩
    rw [hmode] at hm
    exact absurd hm (by decide)
  have hassigned_eq : uploadAssigned round sess.participantId = old.assignedToId := by
    unfold uploadAssigned
    rw [hmode, hrepl, hids]
    simp only [ModeTelephone, if_pos, Option.map_some']
    exact telephoneAssignedTo_repl_preserved ids hnd i _ old.assignedToId hi hmid hne
  have hsafe : uploadPanics round sess.participantId = false := by
    unfold uploadPanics
    rw [hassigned_eq, hpres]
    simp
  refine ⟨uploadResultRound round sess.participantId inp.uuid8 inp.nowUnix
      (strToLower (fileExt inp.origName)) inp.origName, ?_, ?_⟩
  · rw [handleUpload_success inp sess round part hsess hget hpart hact hnos htl hfp hvx
      hsafe hsave]
  · rw [uploadResultRound_submissions, lookup_mapSet_self]
    unfold uploadNewSubmission
    rw [hassigned_eq]

/-- Concrete round for the C3 witness: `a` was assigned to `b` and both are
still present, so the replacement keeps the assignment. -/
def roundC3W : Round :=
  { id := "r3w", name := "Keep", mode := ModeTelephone, joinCode := "KEEPS1",
    state := StateActive, hostId := "a",
    participants := [("a", ⟨"a", "Ada", true, 0⟩), ("b", ⟨"b", "Bo", false, 5⟩)],
    submissions := [("a", ⟨"a", "a_old_1.mp3", "first.mp3", 10, "b"⟩)],
    allowGuestDownload := false, createdAt := 0, sampleFileId := "a_old_1.mp3" }

/-- Concrete replacement upload by `a` for the C3 witness. -/
def uploadInC3W : UploadInput :=
  { code := "KEEPS1", session := some ⟨"t3", "a", "KEEPS1", 0⟩, get := .found roundC3W,
    tooLarge := false, fileProvided := true, origName := "second.mp3", uuid8 := "wwwwwwww",
    nowUnix := 20, saveOk := true, dirFiles := ["a_old_1.mp3"] }

/-- Witness for the amended C3 at a concrete replacement upload. -/
theorem replacement_preserves_assignment_witness :
    ∃ r2 : Round,
      (handleUpload uploadInC3W).writes = [⟨roundKey uploadInC3W.code, .roundVal r2, 24⟩] ∧
      List.lookup "a" r2.submissions =
        some { participantId := "a",
               filename := safeFilename "a" uploadInC3W.uuid8 uploadInC3W.nowUnix
                   (strToLower (fileExt uploadInC3W.origName)),
               originalName := uploadInC3W.origName,
               uploadedAt := uploadInC3W.nowUnix,
               assignedToId := "b" } :=
  replacement_preserves_assignment uploadInC3W ⟨"t3", "a", "KEEPS1", 0⟩ roundC3W
    ⟨"a", "Ada", true, 0⟩ ⟨"a", "a_old_1.mp3", "first.mp3", 10, "b"⟩
    ⟨"b", "Bo", false, 5⟩ ["a", "b"] 0
    rfl rfl (by decide) rfl rfl (by decide) (by decide) (by decide) rfl rfl (by decide) rfl
    (by decide) (by decide) (by decide) (by decide)

/-! ## Claim C4: rollback when the store save fails -/

/-- C4: for every upload that reaches the store save (the assignment log
does not panic, which holds for every state the program itself can produce
since participants are never removed) and whose save fails, the newly
written file is deleted, the operation reports failure, nothing is written
to the store, and the directory—including any prior submission file—is
exactly as before the request. -/
theorem upload_storeFailure_rollback
    (inp : UploadInput) (sess : Session) (round : Round) (part : Participant)
    (hsess : inp.session = some sess)
    (hget : inp.get = .found round)
    (hpart : List.lookup sess.participantId round.participants = some part)
    (hact : round.state = StateActive)
    (hnos : ¬(round.mode = ModeSample ∧ round.sampleFileId = ""))
    (htl : inp.tooLarge = false)
    (hfp : inp.fileProvided = true)
    (hvx : strToLower (fileExt inp.origName) ∈ validExts)
    (hsafe : uploadPanics round sess.participantId = false)
    (hsave : inp.saveOk = false)
    (hfile : safeFilename sess.participantId inp.uuid8 inp.nowUnix
        (strToLower (fileExt inp.origName)) ∉ inp.dirFiles) :
    handleUpload inp = ⟨.httpError 500 "Failed to update round", [], inp.dirFiles⟩ ∧
    (∀ old : Submission, List.lookup sess.participantId round.submissions = some old →
       old.filename ∈ inp.dirFiles → old.filename ∈ (handleUpload inp).dirFiles) := by
  have he := handleUpload_saveFail inp sess round part hsess hget hpart hact hnos htl hfp
    hvx hsafe hsave hfile
  refine ⟨he, fun old _ hmem => ?_⟩
  rw [he]
  exact hmem

/-- Concrete round for the C4 witness: `a` is replacing a prior submission
and the store save fails. -/
def roundC4 : Round :=
  { id := "r4id", name := "Fail", mode := ModeTelephone, joinCode := "FAILS1",
    state := StateActive, hostId := "a",
    participants := [("a", ⟨"a", "Ada", true, 0⟩), ("b", ⟨"b", "Bo", false, 5⟩)],
    submissions := [("a", ⟨"a", "a_old_1.mp3", "first.mp3", 10, "b"⟩)],
    allowGuestDownload := false, createdAt := 0, sampleFileId := "a_old_1.mp3" }

/-- Concrete upload with a failing store save for the C4 witness. -/
def uploadInC4 : UploadInput :=
  { code := "FAILS1", session := some ⟨"t4", "a", "FAILS1", 0⟩, get := .found roundC4,
    tooLarge := false, fileProvided := true, origName := "second.mp3", uuid8 := "qqqqqqqq",
    nowUnix := 30, saveOk := false, dirFiles := ["a_old_1.mp3"] }

/-- Witness for C4 at a concrete failing save: the handler reports failure,
writes nothing, and leaves the directory (with the prior file) unchanged. -/
theorem upload_storeFailure_rollback_witness :
    handleUpload uploadInC4 =
      ⟨.httpError 500 "Failed to update round", [], uploadInC4.dirFiles⟩ ∧
    (∀ old : Submission, List.lookup "a" roundC4.submissions = some old →
       old.filename ∈ uploadInC4.dirFiles → old.filename ∈ (handleUpload uploadInC4).dirFiles) :=
  upload_storeFailure_rollback uploadInC4 ⟨"t4", "a", "FAILS1", 0⟩ roundC4
    ⟨"a", "Ada", true, 0⟩ rfl rfl (by decide) rfl (by decide) rfl rfl (by decide)
    (by decide) rfl (by decide)

/-! ## Claim C7: telephone seed propagation -/

/-- C7: in telephone mode, an upload that completes (its assignment log does
not panic, which holds for every state the program itself can produce) by
the participant at sorted position 0 sets `round.sampleFileId` to the newly
stored filename, and such an upload by a participant at any other sorted
position leaves `round.sampleFileId` unchanged. -/
theorem telephone_seed_propagation
    (inp : UploadInput) (sess : Session) (round : Round) (part : Participant)
    (ids : List String) (i : Nat)
    (hsess : inp.session = some sess)
    (hget : inp.get = .found round)
    (hpart : List.lookup sess.participantId round.participants = some part)
    (hact : round.state = StateActive)
    (hmode : round.mode = ModeTelephone)
    (htl : inp.tooLarge = false)
    (hfp : inp.fileProvided = true)
    (hvx : strToLower (fileExt inp.origName) ∈ validExts)
    (hsafe : uploadPanics round sess.participantId = false)
    (hsave : inp.saveOk = true)
    (hids : sortedParticipantIds round = ids)
    (hnd : ids.Nodup)
    (hi : ids[i]? = some sess.participantId) :
    ∃ r2 : Round,
      (handleUpload inp).writes = [⟨roundKey inp.code, .roundVal r2, 24⟩] ∧
      r2.sampleFileId =
        (if i = 0 then
          safeFilename sess.participantId inp.uuid8 inp.nowUnix
            (strToLower (fileExt inp.origName))
         else round.sampleFileId) := by
  have hnos : ¬(round.mode = ModeSample ∧ round.sampleFileId = "") := by
    rintro ⟨hm, _⟩
    rw [hmode] at hm
    exact absurd hm (by decide)
  refine ⟨uploadResultRound round sess.participantId inp.uuid8 inp.nowUnix
      (strToLower (fileExt inp.origName)) inp.origName, ?_, ?_⟩
  · rw [handleUpload_success inp sess round part hsess hget hpart hact hnos htl hfp hvx
      hsafe hsave]
  · rw [uploadResultRound_sampleFileId, hmode, hids,
      findPos_eq_of_getElem ids hnd i _ hi]
    simp [ModeTelephone]

/-- Concrete round for the C7 witness: `b2` (sorted position 1) uploads, so
the seed `sampleFileId` must stay what it was. -/
def roundC7 : Round :=
  { id := "r7id", name := "Seed", mode := ModeTelephone, joinCode := "SEEDS1",
    state := StateActive, hostId := "a1",
    participants := [("a1", ⟨"a1", "Ana", true, 0⟩), ("b2", ⟨"b2", "Ben", false, 1⟩)],
    submissions := [("a1", ⟨"a1", "a1_seed_9.mp3", "seed.mp3", 9, "b2"⟩)],
    allowGuestDownload := false, createdAt := 0, sampleFileId := "a1_seed_9.mp3" }

/-- Concrete upload by `b2` for the C7 witness. -/
def uploadInC7 : UploadInput :=
  { code := "SEEDS1", session := some ⟨"t7", "b2", "SEEDS1", 0⟩, get := .found roundC7,
    tooLarge := false, fileProvided := true, origName := "pass.mp3", uuid8 := "dddddddd",
    nowUnix := 40, saveOk := true, dirFiles := ["a1_seed_9.mp3"] }

/-- Witness for C7: the non-first participant's upload leaves the seed file
unchanged. -/
theorem telephone_seed_propagation_witness :
    ∃ r2 : Round,
      (handleUpload uploadInC7).writes = [⟨roundKey uploadInC7.code, .roundVal r2, 24⟩] ∧
      r2.sampleFileId =
        (if 1 = 0 then
          safeFilename "b2" uploadInC7.uuid8 uploadInC7.nowUnix
            (strToLower (fileExt uploadInC7.origName))
         else roundC7.sampleFileId) :=
  telephone_seed_propagation uploadInC7 ⟨"t7", "b2", "SEEDS1", 0⟩ roundC7
    ⟨"b2", "Ben", false, 1⟩ ["a1", "b2"] 1 rfl rfl (by decide) rfl rfl rfl rfl
    (by decide) (by decide) rfl (by decide) (by decide) (by decide)

/-! ## Claim C1: the state-change handler never applies a transition -/

/-- C1 (code bug): for every state-change request that decodes, carries one
of the three valid target states, is authenticated, and addresses a round
that exists in the store, `handleUpdateState` answers HTTP 404 "Round not
found" and writes nothing — the inverted `err != redis.Nil` check makes the
host-authorization, transition and save code unreachable. -/
theorem updateState_neverApplies (inp : UpdateStateInput) (sess : Session) (round : Round)
    (hdec : inp.decodeOk = true)
    (hvalid : inp.reqState = StateWaiting ∨ inp.reqState = StateActive ∨
      inp.reqState = StateClosed)
    (hsess : inp.session = some sess)
    (hget : inp.get = .found round) :
    handleUpdateState inp = ⟨.httpError 404 "Round not found", []⟩ := by
  unfold handleUpdateState
  rcases hvalid with h | h | h <;>
    simp [hdec, hsess, hget, h, StateWaiting, StateActive, StateClosed]

/-- Concrete round for the C1 witness. -/
def roundC1 : Round :=
  { id := "r1id", name := "Kickoff", mode := ModeSample, joinCode := "ABC123",
    state := StateWaiting, hostId := "host1",
    participants := [("host1", ⟨"host1", "Hana", true, 0⟩)],
    submissions := [], allowGuestDownload := false, createdAt := 0, sampleFileId := "" }

/-- Witness for C1: the host of an existing waiting round asks for `active`
and still receives 404 with no store write. -/
theorem updateState_neverApplies_witness :
    handleUpdateState ⟨"ABC123", true, "active", some ⟨"tokh", "host1", "ABC123", 0⟩,
        .found roundC1, true⟩ = ⟨.httpError 404 "Round not found", []⟩ :=
  updateState_neverApplies
    ⟨"ABC123", true, "active", some ⟨"tokh", "host1", "ABC123", 0⟩, .found roundC1, true⟩
    ⟨"tokh", "host1", "ABC123", 0⟩ roundC1 rfl (Or.inr (Or.inl rfl)) rfl rfl

/-! ## Claim C10: the guest download path dereferences a nil participant -/

/-- Concrete round for C10: guest downloads are allowed and a sample is
present. -/
def roundC10 : Round :=
  { id := "r10id", name := "Open", mode := ModeSample, joinCode := "GUEST1",
    state := StateClosed, hostId := "h10",
    participants := [("h10", ⟨"h10", "Hoster", true, 0⟩)],
    submissions := [], allowGuestDownload := true, createdAt := 0,
    sampleFileId := "SAMPLE_g_1.mp3" }

/-- C10 (code bug): an authenticated caller who is not a participant of a
round with `allowGuestDownload = true` requests the sample; the file
resolves and opens, the guest gate admits the caller, and the handler then
dereferences the nil participant in its final log statement instead of
completing. -/
theorem download_guest_nilDeref :
    handleDownload ⟨"GUEST1", "sample", some ⟨"tokg", "guest9", "GUEST1", 0⟩,
        .found roundC10, fun _ => true⟩ = .nilDeref := by
  rfl

/-! ## Claim C5: response shapes of the upload preconditions -/

/-- Concrete round for C5: an active sample round with only the host in it. -/
def roundC5 : Round :=
  { id := "r5id", name := "Locked", mode := ModeSample, joinCode := "LOCKD1",
    state := StateActive, hostId := "h5",
    participants := [("h5", ⟨"h5", "Hank", true, 0⟩)],
    submissions := [], allowGuestDownload := false, createdAt := 0,
    sampleFileId := "SAMPLE_x_1.mp3" }

/-- Concrete upload by a session that is not a participant of the round. -/
def uploadInC5 : UploadInput :=
  { code := "LOCKD1", session := some ⟨"t5", "stranger", "LOCKD1", 0⟩, get := .found roundC5,
    tooLarge := false, fileProvided := true, origName := "x.mp3", uuid8 := "ssssssss",
    nowUnix := 7, saveOk := true, dirFiles := [] }

/-- Counterexample to C5 as stated: a participation failure is answered with
the structured `{success:false, error}` JSON body (default HTTP status), not
with HTTP 401. -/
theorem upload_nonparticipant_cex :
    (handleUpload uploadInC5).resp = .jsonError "You are not a participant in this round" ∧
    isHttp401 (handleUpload uploadInC5).resp = false := by
  decide

/-- C5 (amended): each upload precondition failure yields a structured
`{success:false, error}` JSON response; only the authentication failure (no
session) uses HTTP status 401 — the participation failure is structured JSON
like the rest. -/
theorem upload_precondition_responses (inp : UploadInput) (sess : Session) (round : Round)
    (hsess : inp.session = some sess)
    (hget : inp.get = .found round) :
    (∀ inp2 : UploadInput, inp2.session = none →
        (handleUpload inp2).resp = .httpError 401 "Unauthorized") ∧
    (List.lookup sess.participantId round.participants = none →
        (handleUpload inp).resp = .jsonError "You are not a participant in this round") ∧
    (∀ part, List.lookup sess.participantId round.participants = some part →
        round.state ≠ StateActive →
        (handleUpload inp).resp = .jsonError "Uploads are only allowed when the round is active") ∧
    (∀ part, List.lookup sess.participantId round.participants = some part →
        round.state = StateActive → round.mode = ModeSample → round.sampleFileId = "" →
        (handleUpload inp).resp = .jsonError "Waiting for host to upload sample file first") ∧
    (∀ part, List.lookup sess.participantId round.participants = some part →
        round.state = StateActive → ¬(round.mode = ModeSample ∧ round.sampleFileId = "") →
        inp.tooLarge = false → inp.fileProvided = false →
        (handleUpload inp).resp = .jsonError "No file provided") ∧
    (∀ part, List.lookup sess.participantId round.participants = some part →
        round.state = StateActive → ¬(round.mode = ModeSample ∧ round.sampleFileId = "") →
        inp.tooLarge = false → inp.fileProvided = true →
        strToLower (fileExt inp.origName) ∉ validExts →
        (handleUpload inp).resp =
          .jsonError "Invalid file type. Please upload an audio file (mp3, wav, m4a, flac, ogg, aac)") := by
  refine ⟨?_, ?_, ?_, ?_, ?_, ?_⟩
  · intro inp2 h2
    unfold handleUpload
    simp [h2]
  · intro hnp
    unfold handleUpload
    simp [hsess, hget, hnp]
  · intro part hp hstate
    unfold handleUpload
    simp only [hsess, hget, hp]
    rw [if_pos hstate]
  · intro part hp hstate hmode hsample
    unfold handleUpload
    simp only [hsess, hget, hp]
    rw [if_neg (show ¬round.state ≠ StateActive by simp [hstate])]
    rw [if_pos ⟨hmode, hsample⟩]
  · intro part hp hstate hnos htl hfp
    unfold handleUpload
    simp only [hsess, hget, hp]
    rw [if_neg (show ¬round.state ≠ StateActive by simp [hstate])]
    rw [if_neg hnos]
    simp [htl, hfp]
  · intro part hp hstate hnos htl hfp hbad
    unfold handleUpload
    simp only [hsess, hget, hp]
    rw [if_neg (show ¬round.state ≠ StateActive by simp [hstate])]
    rw [if_neg hnos]
    simp [htl, hfp, hbad]

/-- Witness for the amended C5: the non-participant upload receives the
structured JSON rejection. -/
theorem upload_precondition_responses_witness :
    (handleUpload uploadInC5).resp = .jsonError "You are not a participant in this round" :=
  (upload_precondition_responses uploadInC5 ⟨"t5", "stranger", "LOCKD1", 0⟩ roundC5
    rfl rfl).2.1 (by decide)

/-! ## Claim C8: responses to an unknown join code -/

/-- Concrete join request for an unknown code. -/
def joinInC8 : JoinInput :=
  { decodeOk := true, reqCode := "ZZZZZZ", displayName := "Zoe",
    existingSession := none, get := .missing, newParticipantId := "p8",
    newToken := "t8", nowUnix := 2, saveOk := true, sessionSaveOk := true }

/-- Counterexample to C8 as stated: the join request with an unknown code is
answered with the structured `{success:false, error:"Invalid join code"}`
JSON body under the default HTTP status, not with status 404. -/
theorem join_unknownCode_cex :
    (handleJoinRound joinInC8).resp = .jsonError "Invalid join code" ∧
    isHttp404 (handleJoinRound joinInC8).resp = false := by
  decide

/-- C8 (amended): an unknown join code yields HTTP 404 on the upload,
download and export endpoints, but the join endpoint answers a structured
`{success:false, error:"Invalid join code"}` JSON body, and the state
endpoint (whose store-error check is inverted) answers HTTP 500. -/
theorem unknownCode_responses
    (uinp : UploadInput) (sessU : Session)
    (dinp : DownloadInput) (sessD : Session)
    (einp : ExportInput) (sessE : Session)
    (jinp : JoinInput)
    (sinp : UpdateStateInput) (sessS : Session)
    (hus : uinp.session = some sessU) (hug : uinp.get = .missing)
    (hds : dinp.session = some sessD) (hdg : dinp.get = .missing)
    (hes : einp.session = some sessE) (heg : einp.get = .missing)
    (hjd : jinp.decodeOk = true)
    (hjv : ¬(strToUpper (strTrimSpace jinp.reqCode) = "" ∨ jinp.displayName = ""))
    (hjg : jinp.get = .missing)
    (hsd : sinp.decodeOk = true)
    (hsv : sinp.reqState = StateWaiting ∨ sinp.reqState = StateActive ∨
      sinp.reqState = StateClosed)
    (hss : sinp.session = some sessS) (hsg : sinp.get = .missing) :
    (handleUpload uinp).resp = .httpError 404 "Round not found" ∧
    handleDownload dinp = .httpError 404 "Round not found" ∧
    handleExport einp = .httpError 404 "Round not found" ∧
    (handleJoinRound jinp).resp = .jsonError "Invalid join code" ∧
    handleUpdateState sinp = ⟨.httpError 500 "Failed to get round", []⟩ := by
  refine ⟨?_, ?_, ?_, ?_, ?_⟩
  · unfold handleUpload
    simp [hus, hug]
  · unfold handleDownload
    simp [hds, hdg]
  · unfold handleExport
    simp [hes, heg]
  · unfold handleJoinRound
    simp [hjd, hjv, hjg]
  · unfold handleUpdateState
    rcases hsv with h | h | h <;>
      simp [hsd, hss, hsg, h, StateWaiting, StateActive, StateClosed]

/-- Concrete upload against an unknown code for the C8 witness. -/
def uploadInC8W : UploadInput :=
  { code := "NOPE01", session := some ⟨"tw", "pw", "NOPE01", 0⟩, get := .missing,
    tooLarge := false, fileProvided := true, origName := "x.mp3", uuid8 := "wwwwwwww",
    nowUnix := 3, saveOk := true, dirFiles := [] }

/-- Concrete download against an unknown code for the C8 witness. -/
def downloadInC8W : DownloadInput :=
  { code := "NOPE01", requestedFilename := "sample",
    session := some ⟨"tw", "pw", "NOPE01", 0⟩, get := .missing, canOpen := fun _ => true }

/-- Concrete export against an unknown code for the C8 witness. -/
def exportInC8W : ExportInput :=
  { session := some ⟨"tw", "pw", "NOPE01", 0⟩, get := .missing, canOpen := fun _ => true }

/-- Concrete state change against an unknown code for the C8 witness. -/
def stateInC8W : UpdateStateInput :=
  { code := "NOPE01", decodeOk := true, reqState := "closed",
    session := some ⟨"tw", "pw", "NOPE01", 0⟩, get := .missing, saveOk := true }

/-- Witness for the amended C8 at concrete unknown-code requests. -/
theorem unknownCode_responses_witness :
    (handleUpload uploadInC8W).resp = .httpError 404 "Round not found" ∧
    handleDownload downloadInC8W = .httpError 404 "Round not found" ∧
    handleExport exportInC8W = .httpError 404 "Round not found" ∧
    (handleJoinRound joinInC8).resp = .jsonError "Invalid join code" ∧
    handleUpdateState stateInC8W = ⟨.httpError 500 "Failed to get round", []⟩ :=
  unknownCode_responses uploadInC8W ⟨"tw", "pw", "NOPE01", 0⟩
    downloadInC8W ⟨"tw", "pw", "NOPE01", 0⟩ exportInC8W ⟨"tw", "pw", "NOPE01", 0⟩
    joinInC8 stateInC8W ⟨"tw", "pw", "NOPE01", 0⟩
    rfl rfl rfl rfl rfl rfl rfl (by decide) rfl rfl (Or.inr (Or.inr rfl)) rfl rfl

/-! ## Claim C6: store keys and TTLs of every save -/

/-- C9: the export archive lists the sample entry first (when a sample is
set and its file opens), followed by one entry per submission in ascending
display-name order (case-sensitive lexical), each named by a two-digit
positional prefix, the participant's display name and the submission's
original filename; an entry whose file cannot be opened is skipped while the
export still succeeds, and every produced entry has an openable file. -/
theorem export_archive_spec (inp : ExportInput) (sess : Session) (round : Round)
    (named : List (String × Submission))
    (hsess : inp.session = some sess)
    (hget : inp.get = .found round)
    (hhost : sess.participantId = round.hostId)
    (hne : ¬(round.submissions.length = 0 ∧ round.sampleFileId = ""))
    (hnamed : exportNamedSubs round = some named) :
    ∃ sorted : List (String × Submission),
      sorted.Perm named ∧
      List.Pairwise exportNameLe sorted ∧
      handleExport inp = .archive
        ((if round.sampleFileId ≠ "" then
            (if inp.canOpen round.sampleFileId then
              [("00_sample_" ++ round.sampleFileId, round.sampleFileId)]
             else [])
          else []) ++ exportSubmissionEntries sorted inp.canOpen) ∧
      (∀ i nm sub, sorted[i]? = some (nm, sub) → inp.canOpen sub.filename = true →
         (zipEntryName i nm sub.originalName, sub.filename) ∈
           exportSubmissionEntries sorted inp.canOpen) ∧
      (∀ e ∈ exportSubmissionEntries sorted inp.canOpen, inp.canOpen e.2 = true) := by
  refine ⟨List.insertionSort exportNameLe named, List.perm_insertionSort _ _,
    List.sorted_insertionSort exportNameLe named, ?_, ?_, ?_⟩
  · unfold handleExport
    simp only [hsess, hget]
    rw [if_neg (show ¬sess.participantId ≠ round.hostId by simp [hhost])]
    rw [if_neg hne]
    simp only [hnamed]
  · intro i nm sub hidx hcan
    have henum : (List.insertionSort exportNameLe named).enum[i]? = some (i, (nm, sub)) := by
      rw [List.getElem?_enum, hidx]
      rfl
    have hmem := List.getElem?_mem henum
    unfold exportSubmissionEntries
    exact List.mem_filterMap.mpr ⟨(i, (nm, sub)), hmem, by simp [hcan, zipEntryName]⟩
  · intro e he
    unfold exportSubmissionEntries at he
    obtain ⟨a, _, hfa⟩ := List.mem_filterMap.mp he
    by_cases hc : inp.canOpen a.2.2.filename = true
    · rw [if_pos hc] at hfa
      cases hfa
      exact hc
    · rw [if_neg hc] at hfa
      exact absurd hfa (by simp)

/-- Concrete round for the C9 witness: a sample plus two submissions whose
owners' display names sort as `Amy < Zed`. -/
def roundC9 : Round :=
  { id := "r9id", name := "Wrap", mode := ModeSample, joinCode := "WRAPS1",
    state := StateClosed, hostId := "h9",
    participants := [("h9", ⟨"h9", "Zed", true, 0⟩), ("p1", ⟨"p1", "Amy", false, 1⟩)],
    submissions := [("p1", ⟨"p1", "p1_f_2.mp3", "amy.mp3", 2, ""⟩),
                    ("h9", ⟨"h9", "h9_f_3.mp3", "zed.mp3", 3, ""⟩)],
    allowGuestDownload := false, createdAt := 0, sampleFileId := "SAMPLE_s_1.mp3" }

/-- Concrete host export request for the C9 witness. -/
def exportInC9 : ExportInput :=
  { session := some ⟨"t9", "h9", "WRAPS1", 0⟩, get := .found roundC9,
    canOpen := fun _ => true }

/-- Witness for C9 at the concrete export. -/
theorem export_archive_spec_witness :
    ∃ sorted : List (String × Submission),
      sorted.Perm [("Amy", ⟨"p1", "p1_f_2.mp3", "amy.mp3", 2, ""⟩),
                   ("Zed", ⟨"h9", "h9_f_3.mp3", "zed.mp3", 3, ""⟩)] ∧
      List.Pairwise exportNameLe sorted ∧
      handleExport exportInC9 = .archive
        ((if roundC9.sampleFileId ≠ "" then
            (if exportInC9.canOpen roundC9.sampleFileId then
              [("00_sample_" ++ roundC9.sampleFileId, roundC9.sampleFileId)]
             else [])
          else []) ++ exportSubmissionEntries sorted exportInC9.canOpen) ∧
      (∀ i nm sub, sorted[i]? = some (nm, sub) → exportInC9.canOpen sub.filename = true →
         (zipEntryName i nm sub.originalName, sub.filename) ∈
           exportSubmissionEntries sorted exportInC9.canOpen) ∧
      (∀ e ∈ exportSubmissionEntries sorted exportInC9.canOpen,
         exportInC9.canOpen e.2 = true) :=
  export_archive_spec exportInC9 ⟨"t9", "h9", "WRAPS1", 0⟩ roundC9
    [("Amy", ⟨"p1", "p1_f_2.mp3", "amy.mp3", 2, ""⟩),
     ("Zed", ⟨"h9", "h9_f_3.mp3", "zed.mp3", 3, ""⟩)]
    rfl rfl rfl (by decide) (by decide)

end Partitionly
